import Mathlib

/-!
# Verification of the ECS deployment orchestrator core

Shallow embedding of the deployment orchestration engine of the
`ecs-plugin` repository: the retry harness (`internal/util/retry.go`),
the control-plane facade as seen by the strategies
(`internal/executor/executor.go`), the canary and rolling strategies
(`internal/strategy/canary.go`, `internal/strategy/rolling.go`), and the
router / admission layer (`internal/plugin/router.go`).

Conventions of the embedding:
* Go durations are nanosecond counts, modelled as `Nat`.
* Go errors are modelled as `Option String` (`none` = nil error); an
  message text of the error is the `String`.
* The external control plane is an oracle (`Facade`): a predicate giving
  the success of each facade call, plus the value returned by
  `GetPreviousTaskDefinition`.
* `context.Context` cancellation is modelled by explicit boolean
  schedules where a strategy polls `ctx.Done()`; claims about runs that
  complete normally instantiate those schedules with `false`.
-/

namespace EcsPlugin

/-! ## Retry harness: `internal/util/retry.go` -/

/-- Translation of `contains(s, substr)` from `internal/util/retry.go` lines 95-99,
translated literally (Go compares byte slices; all strings involved are
ASCII, so a `List Char` faithfully stands for the byte slice):

    len(s) >= len(substr) && (s == substr || len(s) > len(substr) &&
      (s[:len(substr)] == substr || s[len(s)-len(substr):] == substr ||
        len(s) > len(substr)*2))
-/
def goContains (s sub : List Char) : Bool :=
  decide (s.length ≥ sub.length) &&
    (decide (s = sub) ||
      (decide (s.length > sub.length) &&
        (decide (s.take sub.length = sub) ||
          decide (s.drop (s.length - sub.length) = sub) ||
          decide (s.length > sub.length * 2))))

/-- The `retryableErrors` table of `IsRetryable`
(`internal/util/retry.go` lines 76-84). -/
def retryableErrors : List (List Char) :=
  ["RequestTimeout".data, "ServiceUnavailable".data, "Throttling".data,
   "ThrottlingException".data, "TooManyRequests".data,
   "connection reset".data, "connection refused".data]

/-- Translation of `IsRetryable` (`internal/util/retry.go` lines 70-93) on the message
of a non-nil error (the `err == nil` early return is represented by the
`Option` at the call site). -/
def isRetryable (errMsg : List Char) : Bool :=
  retryableErrors.any (fun sig => goContains errMsg sig)

/-- Wrapper: `IsRetryable` on a `String` message. -/
def isRetryableStr (errMsg : String) : Bool :=
  isRetryable errMsg.data

/-- True substring containment (what the spec means by "the textual
signature of the error matches"): `sub` occurs contiguously inside `s`.
Stated with `List.IsInfix`; used only to compare against `goContains`. -/
def trueContains (s sub : List Char) : Prop :=
  sub <:+: s

instance (s sub : List Char) : Decidable (trueContains s sub) :=
  inferInstanceAs (Decidable (sub <:+: s))

/-- Translation of `RetryConfig` (`internal/util/retry.go` lines 11-15); durations in
nanoseconds. -/
structure RetryConfig where
  maxAttempts : Nat
  baseDelay : Nat
  maxDelay : Nat
  deriving Repr, DecidableEq

/-- Translation of `DefaultRetryConfig` (`internal/util/retry.go` lines 18-24):
3 attempts, 1s base, 30s max. -/
def defaultRetryConfig : RetryConfig :=
  { maxAttempts := 3, baseDelay := 1000000000, maxDelay := 30000000000 }

/-- Result of `ExponentialBackoff`:
* `ok` — some invocation returned nil;
* `nonRetryable e` — an invocation failed with `e`, `IsRetryable(e)` was
  false, and `e` was returned as-is (line 58);
* `exhausted e` — all attempts failed retryably; the harness returned
  `fmt.Errorf("max retry attempts reached: %w", e)` (line 66). -/
inductive RetryResult where
  | ok : RetryResult
  | nonRetryable (e : String) : RetryResult
  | exhausted (e : String) : RetryResult
  deriving Repr, DecidableEq

/-- The error wrapped by a `RetryResult`, if any. -/
def RetryResult.errOf : RetryResult → Option String
  | .ok => none
  | .nonRetryable e => some e
  | .exhausted e => some e

/-- The largest value of the Go `int64` type (`time.Duration` is an
`int64` nanosecond count). -/
def maxInt64 : Int := 9223372036854775807

/-- The smallest value of the Go `int64` type. -/
def minInt64 : Int := -9223372036854775808

/-- Fuelled binary logarithm (`⌊log₂ n⌋` for `n ≥ 1`), structurally
recursive so it evaluates by plain kernel reduction. -/
def log2Fuel : Nat → Nat → Nat
  | 0, _ => 0
  | fuel + 1, n => if n ≥ 2 then log2Fuel fuel (n / 2) + 1 else 0

/-- The value of the Go conversion `float64(n)` for a natural `n`:
round-to-nearest, ties-to-even, at 53 significant bits. Exact (the
identity) for `n < 2^53`; `float64(config.BaseDelay)` at
`internal/util/retry.go` line 35 rounds whenever `BaseDelay` exceeds
2^53 nanoseconds. -/
def floatRound53 (n : Nat) : Nat :=
  if n < 2 ^ 53 then n
  else
    let shift := log2Fuel n n - 52
    let q := n / 2 ^ shift
    let r := n % 2 ^ shift
    let half := 2 ^ (shift - 1)
    if r > half ∨ (r = half ∧ q % 2 = 1) then (q + 1) * 2 ^ shift
    else q * 2 ^ shift

/-- The delay computed at `internal/util/retry.go` lines 35-38 for loop
counter `attempt = exponent + 1`:

    delay := time.Duration(float64(config.BaseDelay) * math.Pow(2, float64(attempt-1)))
    if delay > config.MaxDelay { delay = config.MaxDelay }

The real-valued float64 product is `floatRound53 base * 2^exponent`
(multiplying by a power of two only moves the float exponent, so only
the conversion of `BaseDelay` itself rounds). It is converted to the
`int64`-valued `time.Duration` BEFORE the `MaxDelay` clamp. When the
product exceeds the `int64` range the conversion result is
implementation-dependent per the Go specification; this embedding
models the mainstream gc/amd64 target, where it is the minimum `int64`
— negative, so the `delay > config.MaxDelay` clamp does not fire and
the subsequent `time.After(delay)` returns immediately. (A saturating
target such as arm64 would instead produce the maximum `int64` and the
clamp would mask the overflow.) In range, the conversion is the
identity and the computed delay is `min(base * 2^exponent, maxD)`. -/
def goDelay (base maxD : Nat) (exponent : Nat) : Int :=
  let p : Nat := floatRound53 base * 2 ^ exponent
  let d : Int := if (p : Int) ≤ maxInt64 then (p : Int) else minInt64
  if d > (maxD : Int) then (maxD : Int) else d

/-- Loop body of `ExponentialBackoff` (`internal/util/retry.go` lines
33-64) for a context with no deadline and no cancellation (the claims
quantify over runs "absent cancellation": `hasDeadline` is false and
`ctx.Done()` never fires, so the deadline guard at lines 41-46 and the
`select` cancellation arm at line 50 vanish).

`fn i` is the result of the i-th invocation of the thunk (0-based).
Returns (result, number of invocations performed, list of waits
performed, in order). The wait before a retry at loop counter
`attempt > 0` is `goDelay base maxD (attempt - 1)`; `expWaits` is that
wait as a zero- or one-element list. -/
def expWaits (base maxD attempt : Nat) : List Int :=
  if attempt > 0 then [goDelay base maxD (attempt - 1)] else []

/-- See `expWaits`: the loop of `ExponentialBackoff`, recursion on the
remaining attempt budget, carrying the loop counter `attempt` and the
Go variable `lastErr`. -/
def expBackoffAux (fn : Nat → Option String) (isRetry : String → Bool)
    (base maxD : Nat) : Nat → Nat → String → RetryResult × Nat × List Int
  | _, 0, lastErr => (.exhausted lastErr, 0, [])
  | attempt, remaining + 1, _ =>
    match fn attempt with
    | none => (.ok, 1, expWaits base maxD attempt)
    | some e =>
      if isRetry e then
        match expBackoffAux fn isRetry base maxD (attempt + 1) remaining e with
        | (res, n, ds) => (res, n + 1, expWaits base maxD attempt ++ ds)
      else
        (.nonRetryable e, 1, expWaits base maxD attempt)

/-- Translation of `ExponentialBackoff` (`internal/util/retry.go` lines 27-67) under a
context with no deadline and no cancellation. The initial `lastErr`
stands for the nil Go variable `var lastErr error`. -/
def expBackoff (cfg : RetryConfig) (fn : Nat → Option String) :
    RetryResult × Nat × List Int :=
  expBackoffAux fn isRetryableStr cfg.baseDelay cfg.maxDelay 0 cfg.maxAttempts ""

/-! ## Control-plane facade

The strategies drive the control plane through `executor.Executor`
(`internal/executor/executor.go`), whose methods forward one-for-one to
the ECS/ELB clients. A run of a strategy is recorded as the list of
facade calls it issues, in order. -/

/-- One facade call. `shiftTraffic` is `Executor.UpdateTraffic(ctx,
cluster, service, canaryWeight, primaryWeight)`: per
`ELBClient.UpdateTargetGroupWeights` (`internal/aws/elb.go` lines
33-70), the first weight goes to the canary (new-version) target group
and the second to the primary (old-version) target group.
`waitStable` stands for `Executor.WaitForServiceStable`, which polls
`DescribeService` internally; it is abstracted to one call whose
success means the service reached stability within the bound. -/
inductive FacadeCall where
  | registerTaskDef (taskDef : String)
  | updateService (cluster service taskDef : String)
  | createTaskSet (cluster service taskDef : String) (weight : Nat)
  | deleteTaskSet (cluster service taskSetID : String)
  | shiftTraffic (cluster service : String) (canaryWeight primaryWeight : Nat)
  | getPreviousTaskDef (cluster service : String)
  | describeService (cluster service : String)
  | waitStable (cluster service : String)
  deriving Repr, DecidableEq

/-- Is the call a traffic shift (`Executor.UpdateTraffic`)? -/
def FacadeCall.isShift : FacadeCall → Bool
  | .shiftTraffic _ _ _ _ => true
  | _ => false

/-- Is the call a control-plane mutation? Everything except
describe/get-previous/wait-for-stable mutates. -/
def FacadeCall.isMutation : FacadeCall → Bool
  | .getPreviousTaskDef _ _ => false
  | .describeService _ _ => false
  | .waitStable _ _ => false
  | _ => true

/-- Responses of the environment: which calls succeed, and what
`GetPreviousTaskDefinition` returns (`none` = error). -/
structure Facade where
  callOk : FacadeCall → Bool
  prevTaskDef : String → String → Option String

/-- A facade in which every call succeeds and the previous task
definition is `"td-prev"`. -/
def allOkFacade : Facade :=
  { callOk := fun _ => true, prevTaskDef := fun _ _ => some "td-prev" }

/-- Outcome of the `Execute` method of a strategy: nil error, a non-cancellation
error (with its message), or `ctx.Err()` after observing cancellation. -/
inductive StrategyOutcome where
  | ok : StrategyOutcome
  | err (msg : String) : StrategyOutcome
  | cancelled : StrategyOutcome
  deriving Repr, DecidableEq

/-- Translation of `Executor.RollbackService` (`internal/executor/executor.go` lines
43-49): fetch the previous task definition; on error return
"rollback failed: ..."; otherwise update the service to it and return
the error of that call. Despite its name it *mutates* the service whenever
the fetch succeeds. -/
def rollbackServiceRun (fac : Facade) (cluster service : String) :
    List FacadeCall × Option String :=
  match fac.prevTaskDef cluster service with
  | none => ([.getPreviousTaskDef cluster service], some "rollback failed")
  | some td =>
    ([.getPreviousTaskDef cluster service, .updateService cluster service td],
     if fac.callOk (.updateService cluster service td) then none
     else some "update service failed")

/-! ## Canary strategy: `internal/strategy/canary.go` (multi-stage) -/

/-- Translation of `CanaryStrategy.rollback` (`internal/strategy/canary.go` lines
117-132): shift traffic back to 0% canary / 100% primary, then delete
the `"CANARY"` task set; both failures are logged only, so both calls
are always issued. -/
def canaryRollbackTrace (c s : String) : List FacadeCall :=
  [.shiftTraffic c s 0 100, .deleteTaskSet c s "CANARY"]

/-- The per-stage loop of `CanaryStrategy.Execute`
(`internal/strategy/canary.go` lines 42-77). For stage `i` with weight
`p`: create the task set at weight `p` (failure → rollback if enabled,
error); wait `stage_timeout` racing `ctx.Done()` (`cancelAt i` is true
when the cancellation arm wins); then validate stage health via
`WaitForServiceStable` (failure → rollback if enabled, error).
The stage weights come from `parseCanaryStages` of the config
(default `[20, 50, 100]`); `rb` from `parseRollbackEnabled`
(default true). -/
def canaryStageLoop (fac : Facade) (cancelAt : Nat → Bool) (rb : Bool)
    (c s td : String) : Nat → List Nat → List FacadeCall × StrategyOutcome
  | _, [] => ([], .ok)
  | i, p :: rest =>
    let ct := FacadeCall.createTaskSet c s td p
    if !fac.callOk ct then
      (ct :: (if rb then canaryRollbackTrace c s else []), .err "stage failed")
    else if cancelAt i then
      (ct :: (if rb then canaryRollbackTrace c s else []), .cancelled)
    else
      let hv := FacadeCall.waitStable c s
      if !fac.callOk hv then
        (ct :: hv :: (if rb then canaryRollbackTrace c s else []),
         .err "stage health check failed")
      else
        let rest' := canaryStageLoop fac cancelAt rb c s td (i + 1) rest
        (ct :: hv :: rest'.1, rest'.2)

/-- Translation of `CanaryStrategy.Execute` (`internal/strategy/canary.go` lines
24-98):
1. "Save previous task definition for rollback": calls
   `Executor.RollbackService`; its error is only logged (lines 33-35).
2. Register the new task definition; failure → error (lines 37-39).
3. The stage loop.
4. Final traffic shift: `UpdateTraffic(ctx, cluster, service, 0, 100)`
   (line 81) — canary weight 0, primary weight 100; failure →
   rollback if enabled, error.
5. Delete the `"PRIMARY"` task set; failure → "cleanup failed" error
   (lines 92-94). -/
def canaryExecute (fac : Facade) (cancelAt : Nat → Bool)
    (stages : List Nat) (rb : Bool) (c s td : String) :
    List FacadeCall × StrategyOutcome :=
  let snap := (rollbackServiceRun fac c s).1
  let reg := FacadeCall.registerTaskDef td
  if !fac.callOk reg then (snap ++ [reg], .err "register failed")
  else
    let loop := canaryStageLoop fac cancelAt rb c s td 0 stages
    match loop.2 with
    | .ok =>
      let fin := FacadeCall.shiftTraffic c s 0 100
      if !fac.callOk fin then
        (snap ++ reg :: loop.1 ++
           fin :: (if rb then canaryRollbackTrace c s else []),
         .err "final traffic shift failed")
      else
        let del := FacadeCall.deleteTaskSet c s "PRIMARY"
        if !fac.callOk del then
          (snap ++ reg :: loop.1 ++ [fin, del], .err "cleanup failed")
        else
          (snap ++ reg :: loop.1 ++ [fin, del], .ok)
    | out => (snap ++ reg :: loop.1, out)

/-! ## Rolling strategy: `internal/strategy/rolling.go` -/

/-- The batch weights of `RollingStrategy.Execute`
(`internal/strategy/rolling.go` lines 48-63): `totalBatches :=
100 / batchSize` (Go integer division), and for `batch = 1 ..
totalBatches` the weight is `batch * batchSize` clamped to 100.
`batchSize` is `parseBatchSize` of the config: an integer in 1..100,
else the default 25. -/
def rollingBatchWeights (batchSize : Nat) : List Nat :=
  (List.range (100 / batchSize)).map (fun b => min ((b + 1) * batchSize) 100)

/-- Translation of `RollingStrategy.rollback` (`internal/strategy/rolling.go` lines
121-143): no-op when no previous task definition was recorded;
otherwise shift traffic to 0% new / 100% old (failure → stop), then
update the service back to the snapshot (failure logged). -/
def rollingRollbackTrace (fac : Facade) (c s prev : String) : List FacadeCall :=
  if prev = "" then []
  else
    let sh := FacadeCall.shiftTraffic c s 0 100
    if !fac.callOk sh then [sh]
    else [sh, .updateService c s prev]

/-- The batch loop of `RollingStrategy.Execute`
(`internal/strategy/rolling.go` lines 51-92). Per batch (0-based index
`i` here; the source counts from 1): non-blocking cancellation check
(`cancelAt i`); shift traffic to `w`% new / `(100-w)`% old (failure →
rollback, error); wait `batch_delay` racing cancellation
(`cancelInWait i`); validate batch health via `DescribeService`
(failure → rollback, error). -/
def rollingBatchLoop (fac : Facade) (cancelAt cancelInWait : Nat → Bool)
    (c s prev : String) : Nat → List Nat → List FacadeCall × StrategyOutcome
  | _, [] => ([], .ok)
  | i, w :: rest =>
    if cancelAt i then (rollingRollbackTrace fac c s prev, .cancelled)
    else
      let sh := FacadeCall.shiftTraffic c s w (100 - w)
      if !fac.callOk sh then
        (sh :: rollingRollbackTrace fac c s prev, .err "traffic shift failed")
      else if cancelInWait i then
        (sh :: rollingRollbackTrace fac c s prev, .cancelled)
      else
        let d := FacadeCall.describeService c s
        if !fac.callOk d then
          (sh :: d :: rollingRollbackTrace fac c s prev,
           .err "batch health check failed")
        else
          let rest' := rollingBatchLoop fac cancelAt cancelInWait c s prev (i + 1) rest
          (sh :: d :: rest'.1, rest'.2)

/-- Translation of `RollingStrategy.Execute` (`internal/strategy/rolling.go` lines
26-108): fetch the previous task definition (error logged; the empty
string is recorded in that case); register the new task definition
(failure → error); the batch loop over `rollingBatchWeights batchSize`;
final `UpdateService` to the new task definition (failure → rollback,
error); `WaitForServiceStable` with failure logged only. -/
def rollingExecute (fac : Facade) (cancelAt cancelInWait : Nat → Bool)
    (batchSize : Nat) (c s td : String) : List FacadeCall × StrategyOutcome :=
  let prev := (fac.prevTaskDef c s).getD ""
  let getp := FacadeCall.getPreviousTaskDef c s
  let reg := FacadeCall.registerTaskDef td
  if !fac.callOk reg then ([getp, reg], .err "failed to register task definition")
  else
    let loop := rollingBatchLoop fac cancelAt cancelInWait c s prev 0
      (rollingBatchWeights batchSize)
    match loop.2 with
    | .ok =>
      let up := FacadeCall.updateService c s td
      if !fac.callOk up then
        (getp :: reg :: loop.1 ++ up :: rollingRollbackTrace fac c s prev,
         .err "final update failed")
      else
        (getp :: reg :: loop.1 ++ [up, .waitStable c s], .ok)
    | out => (getp :: reg :: loop.1, out)

/-! ## Router / admission layer: `internal/plugin/router.go` -/

/-- Translation of `DeploymentRequest` (`internal/plugin/router.go` lines 16-23);
`config` is the string-to-string option map as an association list. -/
structure DeploymentRequest where
  deploymentID : String
  clusterARN : String
  serviceName : String
  taskDefinition : String
  strategy : String
  config : List (String × String)
  deriving Repr, DecidableEq

/-- Translation of `DeploymentStatus` (`internal/plugin/router.go` lines 31-37).
The `StartTime`/`EndTime` fields are wall-clock timestamps and carry no
information the claims mention; they are omitted. -/
structure DeploymentStatus where
  status : String
  message : String
  progress : Nat
  deriving Repr, DecidableEq

/-- Model of `sync.Map.Store`: replace the binding for `k`, or append it. -/
def storeAssoc {α : Type} (k : String) (v : α) :
    List (String × α) → List (String × α)
  | [] => [(k, v)]
  | (k', v') :: rest =>
    if k' = k then (k, v) :: rest else (k', v') :: storeAssoc k v rest

/-- Model of `sync.Map.Load`. -/
def lookupAssoc {α : Type} (k : String) : List (String × α) → Option α
  | [] => none
  | (k', v') :: rest => if k' = k then some v' else lookupAssoc k rest

/-- Model of `sync.Map.Delete` (removes the binding for `k`; a well-formed map
holds at most one). -/
def eraseAssoc {α : Type} (k : String) :
    List (String × α) → List (String × α)
  | [] => []
  | (k', v') :: rest =>
    if k' = k then rest else (k', v') :: eraseAssoc k rest

/-- Mutable state of the router: the fixed strategy table (populated once
in `NewRouter`, lines 67-78, and never mutated afterwards), the status
map, the per-service lease map `serviceQueue` (key → deployment id),
and the stored cancellation handles (by deployment id). -/
structure RouterState where
  strategies : List String
  statuses : List (String × DeploymentStatus)
  serviceQueue : List (String × String)
  cancelFuncs : List String
  deriving Repr, DecidableEq

/-- The strategy names registered by `NewRouter`
(`internal/plugin/router.go` lines 68-73). -/
def initialStrategies : List String :=
  ["quicksync", "canary", "bluegreen", "rolling"]

/-- The state of a freshly constructed router. -/
def initialRouter : RouterState :=
  { strategies := initialStrategies, statuses := [],
    serviceQueue := [], cancelFuncs := [] }

/-- Translation of `Router.ValidateRequest` (`internal/plugin/router.go` lines
247-270): first empty field wins; then the strategy must be
registered. Returns the error message, or `none` on success. -/
def validateRequest (strategies : List String) (req : DeploymentRequest) :
    Option String :=
  if req.deploymentID = "" then some "deployment ID is required"
  else if req.clusterARN = "" then some "cluster ARN is required"
  else if req.serviceName = "" then some "service name is required"
  else if req.taskDefinition = "" then some "task definition is required"
  else if req.strategy = "" then some "strategy is required"
  else if strategies.contains req.strategy then none
  else some ("unknown strategy: " ++ req.strategy)

/-- The lease key: `fmt.Sprintf("%s/%s", req.ClusterARN,
req.ServiceName)` (line 90). -/
def serviceKey (req : DeploymentRequest) : String :=
  req.clusterARN ++ "/" ++ req.serviceName

/-- How the synchronous part of `RouteDeployment` ends. -/
inductive AdmitOutcome where
  | rejectedValidation (msg : String) : AdmitOutcome
  | rejectedConcurrent : AdmitOutcome
  | rejectedUnknownStrategy : AdmitOutcome
  | admitted : AdmitOutcome
  deriving Repr, DecidableEq

/-- The status record stored on admission (`internal/plugin/router.go`
lines 105-110): phase RUNNING, progress 0. -/
def runningStatus : DeploymentStatus :=
  { status := "RUNNING", message := "deployment started", progress := 0 }

/-- The synchronous admission path of `Router.RouteDeployment`
(`internal/plugin/router.go` lines 80-116): validate; `LoadOrStore` the
lease keyed `(cluster, service)` and reject when already held; look the
strategy up (releasing the just-claimed lease when absent, lines
98-102); store the RUNNING status record; store the cancellation
handle; return the ACK. The background worker (lines 118-201) is
modelled separately by `workerStatusWrites` and `workerRelease`. -/
def routeAdmit (st : RouterState) (req : DeploymentRequest) :
    AdmitOutcome × RouterState :=
  match validateRequest st.strategies req with
  | some msg => (.rejectedValidation msg, st)
  | none =>
    let key := serviceKey req
    match lookupAssoc key st.serviceQueue with
    | some _ => (.rejectedConcurrent, st)
    | none =>
      let st1 := { st with serviceQueue := storeAssoc key req.deploymentID st.serviceQueue }
      if st.strategies.contains req.strategy then
        (.admitted,
         { st1 with
             statuses := storeAssoc req.deploymentID runningStatus st1.statuses,
             cancelFuncs := req.deploymentID :: st1.cancelFuncs })
      else
        (.rejectedUnknownStrategy,
         { st1 with serviceQueue := eraseAssoc key st1.serviceQueue })

/-- The status records written by the background worker
(`internal/plugin/router.go` lines 118-201), as a function of the
branch conditions of the worker: the pre-deploy hook error, whether
cancellation was observed before execution, the strategy outcome, and
the post-deploy hook error. Exactly one terminal record is written per
run; `StrategyOutcome.cancelled` stands for `err == context.Canceled`
(line 167), whose message text is "context canceled". -/
def workerStatusWrites (preHookErr : Option String) (cancelledBefore : Bool)
    (strat : StrategyOutcome) (postHookErr : Option String) :
    List DeploymentStatus :=
  match preHookErr with
  | some e =>
    [{ status := "FAILED", message := "pre-deploy hook failed: " ++ e,
       progress := 100 }]
  | none =>
    if cancelledBefore then
      [{ status := "CANCELLED", message := "deployment cancelled before execution",
         progress := 100 }]
    else
      match strat with
      | .cancelled =>
        [{ status := "CANCELLED", message := "context canceled", progress := 100 }]
      | .err m => [{ status := "FAILED", message := m, progress := 100 }]
      | .ok =>
        match postHookErr with
        | some e =>
          [{ status := "FAILED", message := "post-deploy hook failed: " ++ e,
             progress := 100 }]
        | none =>
          [{ status := "SUCCESS", message := "deployment completed",
             progress := 100 }]

/-- Deferred cleanup of the worker (`internal/plugin/router.go` lines
119-124): delete the service lease and the cancellation handle. Runs on
every worker exit. -/
def workerRelease (st : RouterState) (key deploymentID : String) : RouterState :=
  { st with
      serviceQueue := eraseAssoc key st.serviceQueue,
      cancelFuncs := st.cancelFuncs.erase deploymentID }

/-- The router-level events an execution interleaves: a synchronous
admission, or the deferred exit step of a worker. -/
inductive RouterEvent where
  | submit (req : DeploymentRequest) : RouterEvent
  | finish (key deploymentID : String) : RouterEvent

/-- One router step. -/
def routerStep (st : RouterState) : RouterEvent → RouterState
  | .submit req => (routeAdmit st req).2
  | .finish key id => workerRelease st key id

/-- Run a sequence of router events. -/
def routerRun (st : RouterState) : List RouterEvent → RouterState
  | [] => st
  | e :: es => routerRun (routerStep st e) es

/-- Translation of `Router.Rollback` (`internal/plugin/router.go` lines 218-220): the
body is exactly `return r.executor.RollbackService(ctx, clusterARN,
serviceName)` — the `deploymentID` parameter is unused and the router
state is not touched, so the embedding returns it unchanged. -/
def routerRollback (st : RouterState) (fac : Facade)
    (deploymentID clusterARN serviceName : String) :
    (List FacadeCall × Option String) × RouterState :=
  (rollbackServiceRun fac clusterARN serviceName, st)

/-- Translation of `DeploymentServer.Rollback` (`internal/grpc/server.go` lines
70-83): forwards to `Router.Rollback` and maps the error to the
`{success, message}` response. The underscore-marked deployment id is
`req.DeploymentId`. -/
def serverRollback (st : RouterState) (fac : Facade)
    (deploymentId clusterArn serviceName : String) :
    (Bool × String) × RouterState :=
  let r := routerRollback st fac deploymentId clusterArn serviceName
  match r.1.2 with
  | some e => ((false, "rollback failed: " ++ e), r.2)
  | none => ((true, "rollback initiated successfully"), r.2)

/-- A facade in which every call succeeds but
`GetPreviousTaskDefinition` errors (fewer than two deployments). -/
def noPrevFacade : Facade :=
  { callOk := fun _ => true, prevTaskDef := fun _ _ => none }

/-- The waits a run of the backoff loop performs when it starts at loop
counter `a` and performs `n` invocations: one `expWaits` entry per
later invocation (specification device for `expBackoffAux`). -/
def delaysFrom (base maxD : Nat) : Nat → Nat → List Int
  | _, 0 => []
  | a, n + 1 => expWaits base maxD a ++ delaysFrom base maxD (a + 1) n

/-! ## Theorems -/

theorem delaysFrom_shift (base maxD : Nat) :
    ∀ (n a : Nat), 1 ≤ a →
      delaysFrom base maxD a n
        = (List.range n).map (fun i => goDelay base maxD (a + i - 1)) := by
  intro n
  induction n with
  | zero => intro a _; rfl
  | succ n ih =>
    intro a ha
    rw [delaysFrom, ih (a + 1) (by omega), List.range_succ_eq_map,
      List.map_cons, List.map_map]
    have h0 : a > 0 := ha
    rw [expWaits, if_pos h0]
    have hf : ((fun i => goDelay base maxD (a + i - 1)) ∘ Nat.succ)
        = (fun i => goDelay base maxD (a + 1 + i - 1)) := by
      funext i
      have harith : a + Nat.succ i - 1 = a + 1 + i - 1 := by omega
      simp [Function.comp, harith]
    rw [hf]
    simp

theorem delaysFrom_zero (base maxD : Nat) (n : Nat) :
    delaysFrom base maxD 0 n
      = (List.range (n - 1)).map (fun i => goDelay base maxD i) := by
  cases n with
  | zero => rfl
  | succ m =>
    rw [delaysFrom, delaysFrom_shift base maxD m 1 (by omega)]
    have e1 : ∀ i : Nat, 1 + i - 1 = i := fun i => by omega
    simp [expWaits, e1]

/-- Invariant of the `ExponentialBackoff` loop, by induction on the
remaining attempt budget: the invocation count is between 1 and the
budget, the waits are exactly `delaysFrom`, the returned error (if any)
is the error of the last invocation, and every invocation before the last
failed with a retryable error. -/
theorem expBackoffAux_spec (fn : Nat → Option String) (isRetry : String → Bool)
    (base maxD : Nat) :
    ∀ (r a : Nat) (lastErr : String) (res : RetryResult) (n : Nat) (ds : List Int),
      1 ≤ r →
      expBackoffAux fn isRetry base maxD a r lastErr = (res, n, ds) →
      1 ≤ n ∧ n ≤ r ∧ ds = delaysFrom base maxD a n
        ∧ res.errOf = fn (a + (n - 1))
        ∧ (∀ j, j + 1 < n → ∃ e, fn (a + j) = some e ∧ isRetry e = true) := by
  intro r
  induction r with
  | zero => intro a lastErr res n ds hr; omega
  | succ r ih =>
    intro a lastErr res n ds _ heq
    rw [expBackoffAux] at heq
    cases hfa : fn a with
    | none =>
      simp only [hfa, Prod.mk.injEq] at heq
      obtain ⟨hres, hn, hds⟩ := heq
      subst hres; subst hn; subst hds
      refine ⟨by omega, by omega, by simp [delaysFrom], ?_, ?_⟩
      · simpa [RetryResult.errOf] using hfa.symm
      · intro j hj; omega
    | some e =>
      by_cases hretry : isRetry e = true
      · simp only [hfa] at heq
        rw [if_pos hretry] at heq
        cases hrec : expBackoffAux fn isRetry base maxD (a + 1) r e with
        | mk res' rest' =>
          cases rest' with
          | mk n' ds' =>
            rw [hrec] at heq
            simp only [Prod.mk.injEq] at heq
            obtain ⟨hres, hn, hds⟩ := heq
            subst hres; subst hn; subst hds
            cases r with
            | zero =>
              rw [expBackoffAux] at hrec
              simp only [Prod.mk.injEq] at hrec
              obtain ⟨hres', hn', hds'⟩ := hrec
              subst hres'; subst hn'; subst hds'
              refine ⟨by omega, by omega, by simp [delaysFrom], ?_, ?_⟩
              · simpa [RetryResult.errOf] using hfa.symm
              · intro j hj; omega
            | succ r' =>
              obtain ⟨h1, h2, h3, h4, h5⟩ :=
                ih (a + 1) e res' n' ds' (by omega) hrec
              refine ⟨by omega, by omega, ?_, ?_, ?_⟩
              · rw [h3]
                cases n' with
                | zero => omega
                | succ m => simp [delaysFrom]
              · have harith : a + 1 + (n' - 1) = a + (n' + 1 - 1) := by omega
                rw [← harith]; exact h4
              · intro j hj
                cases j with
                | zero => exact ⟨e, by simpa using hfa, hretry⟩
                | succ i =>
                  have harith : a + (i + 1) = a + 1 + i := by omega
                  rw [harith]
                  exact h5 i (by omega)
      · simp only [hfa] at heq
        rw [if_neg hretry] at heq
        simp only [Prod.mk.injEq] at heq
        obtain ⟨hres, hn, hds⟩ := heq
        subst hres; subst hn; subst hds
        refine ⟨by omega, by omega, by simp [delaysFrom], ?_, ?_⟩
        · simpa [RetryResult.errOf] using hfa.symm
        · intro j hj; omega

theorem map_congr_mem {α β : Type} {f g : α → β} :
    ∀ (l : List α), (∀ a ∈ l, f a = g a) → l.map f = l.map g := by
  intro l
  induction l with
  | nil => intro _; rfl
  | cons x xs ih =>
    intro h
    simp only [List.map_cons]
    rw [h x (by simp), ih (fun a ha => h a (by simp [ha]))]

theorem goDelay_in_range (base maxD k : Nat) (hbase : base < 2 ^ 53)
    (hp : base * 2 ^ k ≤ 9223372036854775807) :
    goDelay base maxD k = ((min (base * 2 ^ k) maxD : Nat) : Int) := by
  have hround : floatRound53 base = base := by
    rw [floatRound53, if_pos hbase]
  simp only [goDelay, hround]
  have h1 : ((base * 2 ^ k : Nat) : Int) ≤ maxInt64 := by
    rw [maxInt64]
    exact_mod_cast hp
  rw [if_pos h1]
  by_cases h2 : ((base * 2 ^ k : Nat) : Int) > ((maxD : Nat) : Int)
  · rw [if_pos h2]
    have hle : maxD ≤ base * 2 ^ k := by exact_mod_cast le_of_lt h2
    rw [Nat.min_eq_right hle]
  · rw [if_neg h2]
    have hle : base * 2 ^ k ≤ maxD := by exact_mod_cast not_lt.1 h2
    rw [Nat.min_eq_left hle]

theorem goDelay_overflow (base maxD k : Nat)
    (hp : 9223372036854775807 < floatRound53 base * 2 ^ k) :
    goDelay base maxD k = minInt64 := by
  simp only [goDelay]
  have h1 : ¬ ((floatRound53 base * 2 ^ k : Nat) : Int) ≤ maxInt64 := by
    rw [maxInt64, not_le]
    exact_mod_cast hp
  rw [if_neg h1]
  have h2 : ¬ (minInt64 > ((maxD : Nat) : Int)) := by
    rw [minInt64]
    omega
  rw [if_neg h2]

/-- C5 counterexample. At the in-domain configuration
`{max_attempts = 40, base_delay = 1s, max_delay = 30s}` with a
persistently throttled thunk, the run performs all 40 invocations, and
while the wait recorded between attempts 34 and 35 (exponent 33, still
within `int64`) is the claimed 30s cap, the wait between attempts 35
and 36 (exponent 34: `10^9 * 2^34 ≈ 1.7 * 10^19` exceeds the largest
`int64`) is the minimum `int64` — negative, because the float-to-int64
conversion at `internal/util/retry.go` line 35 happens before the
`MaxDelay` clamp, which therefore does not fire (gc/amd64 semantics;
the conversion is implementation-dependent per the Go specification).
The claim's `min(base_delay * 2^(i-1), max_delay) = 30s` is violated:
the real wait is effectively zero, as `time.After` of a negative
duration returns immediately. -/
theorem expBackoff_overflow_skips_clamp :
    (expBackoff
        { maxAttempts := 40, baseDelay := 1000000000, maxDelay := 30000000000 }
        (fun _ => some "Throttling")).2.1 = 40
    ∧ (expBackoff
        { maxAttempts := 40, baseDelay := 1000000000, maxDelay := 30000000000 }
        (fun _ => some "Throttling")).2.2.get? 33
      = some ((30000000000 : Nat) : Int)
    ∧ (expBackoff
        { maxAttempts := 40, baseDelay := 1000000000, maxDelay := 30000000000 }
        (fun _ => some "Throttling")).2.2.get? 34 = some minInt64
    ∧ minInt64 < 0
    ∧ ((min (1000000000 * 2 ^ 34) 30000000000 : Nat) : Int) = 30000000000
    ∧ minInt64 ≠ ((min (1000000000 * 2 ^ 34) 30000000000 : Nat) : Int) := by
  refine ⟨by decide, by decide, by decide, by decide, by decide, by decide⟩

/-- C5 amended. Contract of `ExponentialBackoff`
(`internal/util/retry.go` lines 27-67) for a context without deadline
or cancellation and `max_attempts ≥ 1`: the thunk is invoked at least
once and at most `max_attempts` times; the result is nil exactly when
some invocation succeeded; a non-nil result carries the error of the
last invocation (returned as-is for a non-retryable error, wrapped in
"max retry attempts reached" after exhaustion); and the wait between
invocations `i` and `i+1` (1-based) is `goDelay base_delay max_delay
(i-1)` — which equals the claimed `min(base_delay * 2^(i-1),
max_delay)` whenever `base_delay < 2^53` (so `float64(BaseDelay)` is
exact) and every product `base_delay * 2^(i-1)` up to
`i = max_attempts` fits the `int64` range; outside that range the
float-to-int64 conversion precedes the `MaxDelay` clamp and (on
gc/amd64) yields the negative minimum `int64`, an effectively zero
wait. -/
theorem expBackoff_amended_contract (cfg : RetryConfig) (fn : Nat → Option String)
    (h : 1 ≤ cfg.maxAttempts) :
    (1 ≤ (expBackoff cfg fn).2.1 ∧ (expBackoff cfg fn).2.1 ≤ cfg.maxAttempts)
    ∧ (expBackoff cfg fn).2.2
        = (List.range ((expBackoff cfg fn).2.1 - 1)).map
            (fun i => goDelay cfg.baseDelay cfg.maxDelay i)
    ∧ ((expBackoff cfg fn).1 = .ok ↔ ∃ i < (expBackoff cfg fn).2.1, fn i = none)
    ∧ (∀ e, (expBackoff cfg fn).1 = .nonRetryable e
          ∨ (expBackoff cfg fn).1 = .exhausted e →
        fn ((expBackoff cfg fn).2.1 - 1) = some e)
    ∧ (cfg.baseDelay < 2 ^ 53 →
        cfg.baseDelay * 2 ^ (cfg.maxAttempts - 1) ≤ 9223372036854775807 →
        (expBackoff cfg fn).2.2
          = (List.range ((expBackoff cfg fn).2.1 - 1)).map
              (fun i => ((min (cfg.baseDelay * 2 ^ i) cfg.maxDelay : Nat) : Int))) := by
  cases hout : expBackoff cfg fn with
  | mk res rest =>
    cases rest with
    | mk n ds =>
      have hspec := expBackoffAux_spec fn isRetryableStr cfg.baseDelay cfg.maxDelay
        cfg.maxAttempts 0 "" res n ds h hout
      obtain ⟨h1, h2, h3, h4, h5⟩ := hspec
      simp only [Nat.zero_add] at h4 h5
      refine ⟨⟨h1, h2⟩, ?_, ?_, ?_, ?_⟩
      · show ds = (List.range (n - 1)).map
          (fun i => goDelay cfg.baseDelay cfg.maxDelay i)
        rw [h3, delaysFrom_zero]
      · show res = .ok ↔ ∃ i < n, fn i = none
        constructor
        · intro hok
          refine ⟨n - 1, by omega, ?_⟩
          rw [← h4, hok]; rfl
        · rintro ⟨i, hi, hfn⟩
          by_cases hin : i = n - 1
          · cases hres : res with
            | ok => rfl
            | nonRetryable e =>
              rw [hres] at h4
              rw [hin, ← h4] at hfn
              simp [RetryResult.errOf] at hfn
            | exhausted e =>
              rw [hres] at h4
              rw [hin, ← h4] at hfn
              simp [RetryResult.errOf] at hfn
          · obtain ⟨e, he, _⟩ := h5 i (by omega)
            rw [hfn] at he; cases he
      · show ∀ e, res = .nonRetryable e ∨ res = .exhausted e → fn (n - 1) = some e
        intro e he
        rcases he with he | he <;> rw [← h4, he] <;> rfl
      · intro hbase hfit
        show ds = (List.range (n - 1)).map
          (fun i => ((min (cfg.baseDelay * 2 ^ i) cfg.maxDelay : Nat) : Int))
        rw [h3, delaysFrom_zero]
        apply map_congr_mem
        intro i hi
        have hilt : i < n - 1 := List.mem_range.1 hi
        have hexp : i ≤ cfg.maxAttempts - 1 := by omega
        have hfiti : cfg.baseDelay * 2 ^ i ≤ 9223372036854775807 := by
          have hpow : (2 : Nat) ^ i ≤ 2 ^ (cfg.maxAttempts - 1) :=
            Nat.pow_le_pow_right (by omega) hexp
          have hmul := Nat.mul_le_mul_left cfg.baseDelay hpow
          omega
        exact goDelay_in_range cfg.baseDelay cfg.maxDelay i hbase hfiti

/-- Witness for the amended C5 claim at the default configuration —
whose base delay is exact in float64 and whose products all fit int64 —
and a thunk that fails once with a throttling error and then succeeds:
all hypotheses hold at this input. -/
theorem expBackoff_amended_contract_witness :
    1 ≤ defaultRetryConfig.maxAttempts
    ∧ defaultRetryConfig.baseDelay < 2 ^ 53
    ∧ defaultRetryConfig.baseDelay * 2 ^ (defaultRetryConfig.maxAttempts - 1)
        ≤ 9223372036854775807
    ∧ ((1 ≤ (expBackoff defaultRetryConfig
            (fun i => if i = 0 then some "Throttling" else none)).2.1
        ∧ (expBackoff defaultRetryConfig
            (fun i => if i = 0 then some "Throttling" else none)).2.1
          ≤ defaultRetryConfig.maxAttempts)
      ∧ (expBackoff defaultRetryConfig
            (fun i => if i = 0 then some "Throttling" else none)).2.2
          = (List.range ((expBackoff defaultRetryConfig
              (fun i => if i = 0 then some "Throttling" else none)).2.1 - 1)).map
              (fun i => goDelay defaultRetryConfig.baseDelay
                defaultRetryConfig.maxDelay i)
      ∧ ((expBackoff defaultRetryConfig
            (fun i => if i = 0 then some "Throttling" else none)).1 = .ok
          ↔ ∃ i < (expBackoff defaultRetryConfig
              (fun i => if i = 0 then some "Throttling" else none)).2.1,
              (fun i : Nat => if i = 0 then some "Throttling" else none) i = none)
      ∧ (∀ e, (expBackoff defaultRetryConfig
              (fun i => if i = 0 then some "Throttling" else none)).1
                = .nonRetryable e
            ∨ (expBackoff defaultRetryConfig
              (fun i => if i = 0 then some "Throttling" else none)).1
                = .exhausted e →
          (fun i : Nat => if i = 0 then some "Throttling" else none)
            ((expBackoff defaultRetryConfig
              (fun i => if i = 0 then some "Throttling" else none)).2.1 - 1)
            = some e))
    ∧ (expBackoff defaultRetryConfig
          (fun i => if i = 0 then some "Throttling" else none)).2.2
        = (List.range ((expBackoff defaultRetryConfig
            (fun i => if i = 0 then some "Throttling" else none)).2.1 - 1)).map
            (fun i => ((min (defaultRetryConfig.baseDelay * 2 ^ i)
              defaultRetryConfig.maxDelay : Nat) : Int)) :=
  ⟨by decide, by decide, by decide,
   ⟨(expBackoff_amended_contract defaultRetryConfig
       (fun i => if i = 0 then some "Throttling" else none) (by decide)).1,
    (expBackoff_amended_contract defaultRetryConfig
       (fun i => if i = 0 then some "Throttling" else none) (by decide)).2.1,
    (expBackoff_amended_contract defaultRetryConfig
       (fun i => if i = 0 then some "Throttling" else none) (by decide)).2.2.1,
    (expBackoff_amended_contract defaultRetryConfig
       (fun i => if i = 0 then some "Throttling" else none) (by decide)).2.2.2.1⟩,
   (expBackoff_amended_contract defaultRetryConfig
       (fun i => if i = 0 then some "Throttling" else none) (by decide)).2.2.2.2
     (by decide) (by decide)⟩

/-- C1. A canary run over the default stages `[20, 50, 100]` in which
every facade call succeeds completes in SUCCESS, yet the only traffic
shift it ever issues — the "final traffic shift" of
`internal/strategy/canary.go` line 81, the last mutation before the
cleanup `DeleteTaskSet` — is `UpdateTraffic(canaryWeight = 0,
primaryWeight = 100)`: it routes 0% of traffic to the newly deployed
canary task set and 100% to the old primary, the exact opposite of the
claimed `shift_traffic(100%, 0%)`; no `shift_traffic(100, 0)` call
occurs anywhere in the run. -/
theorem canary_success_final_shift_gives_new_version_zero :
    (canaryExecute allOkFacade (fun _ => false) [20, 50, 100] true
        "c" "s" "td-v2").2 = .ok
    ∧ ((canaryExecute allOkFacade (fun _ => false) [20, 50, 100] true
        "c" "s" "td-v2").1.filter FacadeCall.isShift
      = [.shiftTraffic "c" "s" 0 100])
    ∧ FacadeCall.shiftTraffic "c" "s" 100 0 ∉
        (canaryExecute allOkFacade (fun _ => false) [20, 50, 100] true
          "c" "s" "td-v2").1 := by
  refine ⟨rfl, rfl, ?_⟩
  decide

/-- C3. The canary "snapshot" step (`internal/strategy/canary.go` lines
32-35, comment: "Save previous task definition for rollback") calls
`Executor.RollbackService`, which does not merely read: whenever the
previous task definition exists it issues `update_service(prev)` — a
mutating facade call — before the new task definition is even
registered. The second half of the claim does hold: when the fetch fails the
strategy continues to the register phase (second conjunct: under
`noPrevFacade` the run still reaches `.ok` and its second call is
`registerTaskDef`). -/
theorem canary_snapshot_step_mutates_service :
    ((canaryExecute allOkFacade (fun _ => false) [20, 50, 100] true
        "c" "s" "td-v2").1.take 3
      = [.getPreviousTaskDef "c" "s", .updateService "c" "s" "td-prev",
         .registerTaskDef "td-v2"])
    ∧ FacadeCall.isMutation (.updateService "c" "s" "td-prev") = true
    ∧ (canaryExecute noPrevFacade (fun _ => false) [20, 50, 100] true
        "c" "s" "td-v2").2 = .ok
    ∧ ((canaryExecute noPrevFacade (fun _ => false) [20, 50, 100] true
        "c" "s" "td-v2").1.take 2
      = [.getPreviousTaskDef "c" "s", .registerTaskDef "td-v2"]) := by
  exact ⟨rfl, rfl, rfl, rfl⟩

/-- C4. `IsRetryable` is not "message contains a known transient
signature": the helper `contains` (`internal/util/retry.go` lines
95-99) classifies any sufficiently long string as containing anything.
A 21-character message of repeated `a`s contains none of the seven
signatures yet is classified retryable, while `"xThrottlingOk"`, which
does contain the signature `"Throttling"`, is classified
non-retryable. -/
theorem isRetryable_disagrees_with_containment :
    isRetryable "aaaaaaaaaaaaaaaaaaaaa".data = true
    ∧ (∀ sig ∈ retryableErrors, ¬ trueContains "aaaaaaaaaaaaaaaaaaaaa".data sig)
    ∧ isRetryable "xThrottlingOk".data = false
    ∧ trueContains "xThrottlingOk".data "Throttling".data := by
  refine ⟨rfl, ?_, rfl, ?_⟩ <;> decide

/-- C2 counterexample. Submitting a valid request whose config sets
`require_approval` to `"true"` to a fresh router is admitted with a
status record in phase RUNNING — not PENDING_APPROVAL — exactly as for
any other request (`internal/plugin/router.go` lines 104-110 store
`"RUNNING"` unconditionally; nothing in `RouteDeployment` reads the
config or the approval subsystem). -/
theorem admission_ignores_require_approval :
    (routeAdmit initialRouter
        { deploymentID := "d6", clusterARN := "c", serviceName := "s",
          taskDefinition := "td", strategy := "canary",
          config := [("require_approval", "true")] }).1 = .admitted
    ∧ lookupAssoc "d6"
        (routeAdmit initialRouter
          { deploymentID := "d6", clusterARN := "c", serviceName := "s",
            taskDefinition := "td", strategy := "canary",
            config := [("require_approval", "true")] }).2.statuses
      = some runningStatus
    ∧ runningStatus.status = "RUNNING"
    ∧ runningStatus.status ≠ "PENDING_APPROVAL" := by
  refine ⟨rfl, rfl, rfl, ?_⟩
  decide

/-- C8 counterexample. With `batch_size = 30` the rolling batch loop
performs `100 / 30 = 3` traffic-shift batches — not
`⌈100 / 30⌉ = 4` — at weights 30, 60, 90, and no batch shifts 100% of
traffic: the all-success run issues exactly three `shift_traffic`
calls, none with new-version weight 100 (the service only reaches the
new version through the separate `UpdateService` after the loop). -/
theorem rolling_batch_count_is_floor_not_ceil :
    rollingBatchWeights 30 = [30, 60, 90]
    ∧ (100 + 30 - 1) / 30 = 4
    ∧ (rollingBatchWeights 30).length ≠ 4
    ∧ 100 ∉ rollingBatchWeights 30
    ∧ ((rollingExecute allOkFacade (fun _ => false) (fun _ => false) 30
        "c" "s" "td-v2").1.filter FacadeCall.isShift
      = [.shiftTraffic "c" "s" 30 70, .shiftTraffic "c" "s" 60 40,
         .shiftTraffic "c" "s" 90 10])
    ∧ (rollingExecute allOkFacade (fun _ => false) (fun _ => false) 30
        "c" "s" "td-v2").2 = .ok := by
  refine ⟨rfl, rfl, ?_, ?_, rfl, rfl⟩ <;> decide

theorem lookupAssoc_storeAssoc_self {α : Type} (k : String) (v : α)
    (l : List (String × α)) :
    lookupAssoc k (storeAssoc k v l) = some v := by
  induction l with
  | nil => simp [storeAssoc, lookupAssoc]
  | cons p rest ih =>
    cases p with
    | mk k' v' =>
      by_cases hk : k' = k
      · simp [storeAssoc, lookupAssoc, hk]
      · simp [storeAssoc, lookupAssoc, hk, ih]

theorem lookupAssoc_eq_none_iff {α : Type} (k : String) (l : List (String × α)) :
    lookupAssoc k l = none ↔ k ∉ l.map Prod.fst := by
  induction l with
  | nil => simp [lookupAssoc]
  | cons p rest ih =>
    cases p with
    | mk k' v' =>
      by_cases hk : k' = k
      · subst hk
        simp [lookupAssoc]
      · rw [List.map_cons]
        simp only [lookupAssoc, if_neg hk, List.mem_cons]
        rw [ih]
        constructor
        · intro hnot hor
          rcases hor with h1 | h2
          · exact hk h1.symm
          · exact hnot h2
        · intro hnot h2
          exact hnot (Or.inr h2)

theorem mem_keys_storeAssoc {α : Type} (a k : String) (v : α)
    (l : List (String × α)) :
    a ∈ (storeAssoc k v l).map Prod.fst ↔ a = k ∨ a ∈ l.map Prod.fst := by
  induction l with
  | nil => simp [storeAssoc]
  | cons p rest ih =>
    cases p with
    | mk k' v' =>
      by_cases hk : k' = k
      · subst hk
        rw [storeAssoc, if_pos rfl]
        simp only [List.map_cons, List.mem_cons]
        tauto
      · rw [storeAssoc, if_neg hk]
        simp only [List.map_cons, List.mem_cons, ih]
        tauto

theorem nodup_keys_storeAssoc {α : Type} (k : String) (v : α)
    (l : List (String × α)) (h : (l.map Prod.fst).Nodup) :
    ((storeAssoc k v l).map Prod.fst).Nodup := by
  induction l with
  | nil => simp [storeAssoc]
  | cons p rest ih =>
    cases p with
    | mk k' v' =>
      simp only [List.map_cons, List.nodup_cons] at h
      obtain ⟨hnotin, hrest⟩ := h
      by_cases hk : k' = k
      · subst hk
        rw [storeAssoc, if_pos rfl]
        simp only [List.map_cons, List.nodup_cons]
        exact ⟨hnotin, hrest⟩
      · rw [storeAssoc, if_neg hk]
        simp only [List.map_cons, List.nodup_cons]
        refine ⟨?_, ih hrest⟩
        rw [mem_keys_storeAssoc]
        rintro (h1 | h2)
        · exact hk h1
        · exact hnotin h2

theorem keys_eraseAssoc_sublist {α : Type} (k : String) (l : List (String × α)) :
    ((eraseAssoc k l).map Prod.fst).Sublist (l.map Prod.fst) := by
  induction l with
  | nil => simp [eraseAssoc]
  | cons p rest ih =>
    cases p with
    | mk k' v' =>
      by_cases hk : k' = k
      · simp only [eraseAssoc, if_pos hk, List.map_cons]
        exact (List.Sublist.refl _).cons _
      · simp only [eraseAssoc, if_neg hk, List.map_cons]
        exact ih.cons₂ k'

theorem nodup_keys_eraseAssoc {α : Type} (k : String) (l : List (String × α))
    (h : (l.map Prod.fst).Nodup) :
    ((eraseAssoc k l).map Prod.fst).Nodup :=
  h.sublist (keys_eraseAssoc_sublist k l)

theorem lookupAssoc_eraseAssoc_self {α : Type} (k : String)
    (l : List (String × α)) (h : (l.map Prod.fst).Nodup) :
    lookupAssoc k (eraseAssoc k l) = none := by
  induction l with
  | nil => rfl
  | cons p rest ih =>
    cases p with
    | mk k' v' =>
      simp only [List.map_cons, List.nodup_cons] at h
      obtain ⟨hnotin, hrest⟩ := h
      by_cases hk : k' = k
      · subst hk
        simp only [eraseAssoc, if_pos rfl]
        rw [lookupAssoc_eq_none_iff]
        exact hnotin
      · simp only [eraseAssoc, if_neg hk, lookupAssoc]
        exact ih hrest

theorem eraseAssoc_storeAssoc {α : Type} (k : String) (v : α)
    (l : List (String × α)) (h : lookupAssoc k l = none) :
    eraseAssoc k (storeAssoc k v l) = l := by
  induction l with
  | nil => simp [storeAssoc, eraseAssoc]
  | cons p rest ih =>
    cases p with
    | mk k' v' =>
      by_cases hk : k' = k
      · subst hk
        simp only [lookupAssoc, if_pos rfl] at h
        cases h
      · simp only [lookupAssoc, if_neg hk] at h
        simp only [storeAssoc, if_neg hk, eraseAssoc]
        rw [ih h]

theorem validateRequest_contains {strategies : List String}
    {req : DeploymentRequest} (h : validateRequest strategies req = none) :
    strategies.contains req.strategy = true := by
  unfold validateRequest at h
  repeat' split at h
  all_goals simp_all

/-- C7. A rejected submission leaves the router untouched. First
conjunct: whenever `RouteDeployment` does not admit (empty field,
unregistered strategy, or lease already held), the entire router state
— status map, lease map, cancellation handles — is exactly what it was
(`internal/plugin/router.go` lines 80-102: each rejection path returns
before or after undoing its own writes). Second conjunct: the release
performed on the unknown-strategy path (line 100) restores the lease
map: deleting a freshly claimed key yields the original map. -/
theorem rejection_leaves_router_unchanged :
    (∀ (st : RouterState) (req : DeploymentRequest),
        (routeAdmit st req).1 ≠ .admitted → (routeAdmit st req).2 = st)
    ∧ (∀ (key id : String) (q : List (String × String)),
        lookupAssoc key q = none → eraseAssoc key (storeAssoc key id q) = q) := by
  constructor
  · intro st req h
    unfold routeAdmit at h ⊢
    cases hv : validateRequest st.strategies req with
    | some msg => simp [hv]
    | none =>
      cases hq : lookupAssoc (serviceKey req) st.serviceQueue with
      | some d => simp [hv, hq]
      | none =>
        have hc := validateRequest_contains hv
        simp only [hv, hq, hc, if_true] at h
        exact absurd rfl h
  · intro key id q hq
    exact eraseAssoc_storeAssoc key id q hq

/-- Witness for C7: a submission with an empty `deployment_id` against
a fresh router is rejected and leaves the state equal to
`initialRouter`; deleting a freshly claimed key from an empty lease map
restores the empty map. -/
theorem rejection_leaves_router_unchanged_witness :
    (routeAdmit initialRouter
        { deploymentID := "", clusterARN := "c", serviceName := "s",
          taskDefinition := "td", strategy := "canary", config := [] }).1
      ≠ .admitted
    ∧ (routeAdmit initialRouter
        { deploymentID := "", clusterARN := "c", serviceName := "s",
          taskDefinition := "td", strategy := "canary", config := [] }).2
        = initialRouter
    ∧ lookupAssoc "c/s" ([] : List (String × String)) = none
    ∧ eraseAssoc "c/s" (storeAssoc "c/s" "d2" []) = [] :=
  ⟨by decide,
   rejection_leaves_router_unchanged.1 initialRouter
     { deploymentID := "", clusterARN := "c", serviceName := "s",
       taskDefinition := "td", strategy := "canary", config := [] } (by decide),
   rfl,
   rejection_leaves_router_unchanged.2 "c/s" "d2" [] rfl⟩

/-- C2 amended. Admission creates the status record in phase RUNNING
with progress 0 no matter what the config contains — `require_approval`
included — and the worker's possible status writes never include a
PENDING_APPROVAL phase: the deployment pipeline never consults the
approval subsystem (`ApprovalManager.RequestApproval` and
`WaitForApproval` of `internal/executor/approval.go` have no caller in
the deployment path), so an approval rejection or timeout cannot keep
the strategy from running. -/
theorem admitted_deployment_starts_running (st : RouterState)
    (req : DeploymentRequest) (h : (routeAdmit st req).1 = .admitted) :
    lookupAssoc req.deploymentID (routeAdmit st req).2.statuses = some runningStatus
    ∧ runningStatus.status = "RUNNING"
    ∧ runningStatus.progress = 0
    ∧ (∀ (pre : Option String) (cb : Bool) (strat : StrategyOutcome)
        (post : Option String),
        "PENDING_APPROVAL" ∉
          (workerStatusWrites pre cb strat post).map DeploymentStatus.status) := by
  refine ⟨?_, rfl, rfl, ?_⟩
  · unfold routeAdmit at h ⊢
    cases hv : validateRequest st.strategies req with
    | some msg => simp [hv] at h
    | none =>
      cases hq : lookupAssoc (serviceKey req) st.serviceQueue with
      | some d => simp [hv, hq] at h
      | none =>
        have hc := validateRequest_contains hv
        simp only [hv, hq, hc, if_true]
        show lookupAssoc req.deploymentID
          (storeAssoc req.deploymentID runningStatus st.statuses) = some runningStatus
        exact lookupAssoc_storeAssoc_self _ _ _
  · intro pre cb strat post
    cases pre <;> cases cb <;> cases strat <;> cases post <;>
      simp [workerStatusWrites]

/-- Witness for the amended C2 claim: the request of the counterexample
(`require_approval = "true"`) is admitted by a fresh router, and the
conclusion of the theorem holds at it. -/
theorem admitted_deployment_starts_running_witness :
    lookupAssoc "d6"
        (routeAdmit initialRouter
          { deploymentID := "d6", clusterARN := "c", serviceName := "s",
            taskDefinition := "td", strategy := "quicksync",
            config := [("require_approval", "true")] }).2.statuses
      = some runningStatus
    ∧ runningStatus.status = "RUNNING"
    ∧ runningStatus.progress = 0
    ∧ (∀ (pre : Option String) (cb : Bool) (strat : StrategyOutcome)
        (post : Option String),
        "PENDING_APPROVAL" ∉
          (workerStatusWrites pre cb strat post).map DeploymentStatus.status) :=
  admitted_deployment_starts_running initialRouter
    { deploymentID := "d6", clusterARN := "c", serviceName := "s",
      taskDefinition := "td", strategy := "quicksync",
      config := [("require_approval", "true")] } (by decide)

theorem routeAdmit_queue_cases (st : RouterState) (req : DeploymentRequest) :
    (routeAdmit st req).2.serviceQueue = st.serviceQueue
    ∨ (lookupAssoc (serviceKey req) st.serviceQueue = none
        ∧ (routeAdmit st req).2.serviceQueue
            = storeAssoc (serviceKey req) req.deploymentID st.serviceQueue)
    ∨ (lookupAssoc (serviceKey req) st.serviceQueue = none
        ∧ (routeAdmit st req).2.serviceQueue
            = eraseAssoc (serviceKey req)
                (storeAssoc (serviceKey req) req.deploymentID st.serviceQueue)) := by
  cases hv : validateRequest st.strategies req with
  | some msg =>
    left
    simp only [routeAdmit, hv]
  | none =>
    cases hq : lookupAssoc (serviceKey req) st.serviceQueue with
    | some d =>
      left
      simp only [routeAdmit, hv, hq]
    | none =>
      cases hc : st.strategies.contains req.strategy with
      | true =>
        right; left
        refine ⟨rfl, ?_⟩
        simp only [routeAdmit, hv, hq, hc, if_true]
      | false =>
        right; right
        refine ⟨rfl, ?_⟩
        simp only [routeAdmit, hv, hq, hc, Bool.false_eq_true, if_false]

theorem routerStep_nodup_keys (st : RouterState) (e : RouterEvent)
    (h : (st.serviceQueue.map Prod.fst).Nodup) :
    (((routerStep st e).serviceQueue).map Prod.fst).Nodup := by
  cases e with
  | submit req =>
    show (((routeAdmit st req).2.serviceQueue).map Prod.fst).Nodup
    rcases routeAdmit_queue_cases st req with hcase | ⟨_, hcase⟩ | ⟨_, hcase⟩ <;>
      rw [hcase]
    · exact h
    · exact nodup_keys_storeAssoc _ _ _ h
    · exact nodup_keys_eraseAssoc _ _ (nodup_keys_storeAssoc _ _ _ h)
  | finish key id =>
    exact nodup_keys_eraseAssoc _ _ h

theorem routerRun_nodup_keys :
    ∀ (evs : List RouterEvent) (st : RouterState),
      (st.serviceQueue.map Prod.fst).Nodup →
      (((routerRun st evs).serviceQueue).map Prod.fst).Nodup := by
  intro evs
  induction evs with
  | nil => intro st h; exact h
  | cons e rest ih =>
    intro st h
    exact ih (routerStep st e) (routerStep_nodup_keys st e h)

/-- C6. Per-service mutual exclusion.
1. From any state with duplicate-free lease keys — the fresh router in
   particular — every interleaving of admissions and worker exits keeps
   the lease map duplicate-free: at most one active deployment holds
   the lease for each `(cluster, service)` key at any instant.
2. While a lease is held, a second valid submission for the same key is
   rejected with the CONCURRENT failure and changes nothing
   (`LoadOrStore` at `internal/plugin/router.go` lines 91-96).
3. The lease is deleted by the worker's deferred cleanup (lines
   119-124); after it runs, a valid submission for the same service is
   admitted again. -/
theorem per_service_mutual_exclusion :
    (∀ (st : RouterState) (evs : List RouterEvent),
        (st.serviceQueue.map Prod.fst).Nodup →
        (((routerRun st evs).serviceQueue).map Prod.fst).Nodup)
    ∧ (∀ (st : RouterState) (req : DeploymentRequest) (d : String),
        validateRequest st.strategies req = none →
        lookupAssoc (serviceKey req) st.serviceQueue = some d →
        routeAdmit st req = (.rejectedConcurrent, st))
    ∧ (∀ (st : RouterState) (req : DeploymentRequest) (id : String),
        (st.serviceQueue.map Prod.fst).Nodup →
        validateRequest st.strategies req = none →
        (routeAdmit (workerRelease st (serviceKey req) id) req).1 = .admitted) := by
  refine ⟨fun st evs h => routerRun_nodup_keys evs st h, ?_, ?_⟩
  · intro st req d hv hq
    unfold routeAdmit
    simp only [hv, hq]
  · intro st req id h hv
    have hrel : (workerRelease st (serviceKey req) id).serviceQueue
        = eraseAssoc (serviceKey req) st.serviceQueue := rfl
    have hstrat : (workerRelease st (serviceKey req) id).strategies
        = st.strategies := rfl
    have hfree : lookupAssoc (serviceKey req)
        (workerRelease st (serviceKey req) id).serviceQueue = none := by
      rw [hrel]
      exact lookupAssoc_eraseAssoc_self _ _ h
    have hc := validateRequest_contains hv
    unfold routeAdmit
    rw [hstrat, hv]
    simp only [hfree, hc, if_true]

/-- Witness for C6: each conjunct of `per_service_mutual_exclusion`
instantiated at concrete inputs, with every hypothesis discharged — a
fresh router running a submit/finish interleaving; a state whose lease
map already holds `"c/s"` rejecting a second valid submission; and a
release of `"c/s"` followed by re-admission of the same service. -/
theorem per_service_mutual_exclusion_witness :
    (initialRouter.serviceQueue.map Prod.fst).Nodup
    ∧ (((routerRun initialRouter
          [.submit { deploymentID := "d1", clusterARN := "c", serviceName := "s",
                     taskDefinition := "td", strategy := "canary", config := [] },
           .finish "c/s" "d1"]).serviceQueue).map Prod.fst).Nodup
    ∧ validateRequest initialStrategies
        { deploymentID := "d2", clusterARN := "c", serviceName := "s",
          taskDefinition := "td", strategy := "canary", config := [] } = none
    ∧ lookupAssoc "c/s" [("c/s", "d1")] = some "d1"
    ∧ routeAdmit
        { strategies := initialStrategies,
          statuses := [], serviceQueue := [("c/s", "d1")], cancelFuncs := ["d1"] }
        { deploymentID := "d2", clusterARN := "c", serviceName := "s",
          taskDefinition := "td", strategy := "canary", config := [] }
        = (.rejectedConcurrent,
           { strategies := initialStrategies,
             statuses := [], serviceQueue := [("c/s", "d1")],
             cancelFuncs := ["d1"] })
    ∧ (routeAdmit
        (workerRelease
          { strategies := initialStrategies,
            statuses := [], serviceQueue := [("c/s", "d1")], cancelFuncs := ["d1"] }
          (serviceKey { deploymentID := "d5", clusterARN := "c", serviceName := "s",
                        taskDefinition := "td", strategy := "canary", config := [] })
          "d1")
        { deploymentID := "d5", clusterARN := "c", serviceName := "s",
          taskDefinition := "td", strategy := "canary", config := [] }).1
        = .admitted :=
  ⟨by decide,
   per_service_mutual_exclusion.1 initialRouter
     [.submit { deploymentID := "d1", clusterARN := "c", serviceName := "s",
                taskDefinition := "td", strategy := "canary", config := [] },
      .finish "c/s" "d1"] (by decide),
   by decide,
   by decide,
   per_service_mutual_exclusion.2.1
     { strategies := initialStrategies,
       statuses := [], serviceQueue := [("c/s", "d1")], cancelFuncs := ["d1"] }
     { deploymentID := "d2", clusterARN := "c", serviceName := "s",
       taskDefinition := "td", strategy := "canary", config := [] } "d1"
     (by decide) (by decide),
   per_service_mutual_exclusion.2.2
     { strategies := initialStrategies,
       statuses := [], serviceQueue := [("c/s", "d1")], cancelFuncs := ["d1"] }
     { deploymentID := "d5", clusterARN := "c", serviceName := "s",
       taskDefinition := "td", strategy := "canary", config := [] } "d1"
     (by decide) (by decide)⟩

/-- C9. Every status record the router ever stores for a deployment —
the RUNNING record written at admission (`internal/plugin/router.go`
lines 105-110) and whichever terminal record the worker writes (lines
128-134, 142-148, 170-176, 181-187, 192-198) — satisfies
`progress = 100 ⇔ phase ∈ {SUCCESS, FAILED, CANCELLED}`: the one
non-terminal write carries progress 0 and every terminal write carries
progress 100, for every combination of hook errors, cancellation, and
strategy outcome. -/
theorem progress_100_iff_terminal (pre : Option String) (cb : Bool)
    (strat : StrategyOutcome) (post : Option String) (w : DeploymentStatus)
    (hw : w ∈ runningStatus :: workerStatusWrites pre cb strat post) :
    (w.progress = 100
      ↔ (w.status = "SUCCESS" ∨ w.status = "FAILED" ∨ w.status = "CANCELLED")) := by
  rcases List.mem_cons.1 hw with hw | hw
  · subst hw
    decide
  · cases pre <;> cases cb <;> cases strat <;> cases post <;>
      simp_all [workerStatusWrites]

/-- Witness for C9: the SUCCESS write of a clean run (no hook errors,
no cancellation, strategy ok) satisfies the equivalence; its membership
hypothesis is discharged by evaluation. -/
theorem progress_100_iff_terminal_witness :
    ({ status := "SUCCESS", message := "deployment completed", progress := 100 }
        : DeploymentStatus)
      ∈ runningStatus :: workerStatusWrites none false .ok none
    ∧ ((({ status := "SUCCESS", message := "deployment completed", progress := 100 }
          : DeploymentStatus).progress = 100)
        ↔ (({ status := "SUCCESS", message := "deployment completed", progress := 100 }
            : DeploymentStatus).status = "SUCCESS"
          ∨ ({ status := "SUCCESS", message := "deployment completed", progress := 100 }
            : DeploymentStatus).status = "FAILED"
          ∨ ({ status := "SUCCESS", message := "deployment completed", progress := 100 }
            : DeploymentStatus).status = "CANCELLED")) :=
  ⟨by decide,
   progress_100_iff_terminal none false .ok none
     { status := "SUCCESS", message := "deployment completed", progress := 100 }
     (by decide)⟩

/-- C10. `Router.Rollback` (`internal/plugin/router.go` lines 218-220)
and the RPC endpoint over it (`DeploymentServer.Rollback`) ignore the
`deployment_id` argument entirely: any two ids give identical results;
the router state — the status map in particular — is returned
untouched; and the facade effect is exactly
`get_previous_task_definition` followed by `update_service` to the
fetched definition whenever the fetch succeeds. -/
theorem rollback_ignores_deployment_id :
    ∀ (st : RouterState) (fac : Facade) (id1 id2 c s : String),
      routerRollback st fac id1 c s = routerRollback st fac id2 c s
      ∧ serverRollback st fac id1 c s = serverRollback st fac id2 c s
      ∧ (routerRollback st fac id1 c s).2 = st
      ∧ (routerRollback st fac id1 c s).2.statuses = st.statuses
      ∧ (∀ td, fac.prevTaskDef c s = some td →
          (routerRollback st fac id1 c s).1.1
            = [.getPreviousTaskDef c s, .updateService c s td]) := by
  intro st fac id1 id2 c s
  refine ⟨rfl, rfl, rfl, rfl, ?_⟩
  intro td h
  simp [routerRollback, rollbackServiceRun, h]

/-- Witness for C10 at a concrete facade and state: ids `"d1"` and
`"d2"` are interchangeable, the state survives unchanged, and the
fetched `"td-prev"` is pushed back via `update_service`. -/
theorem rollback_ignores_deployment_id_witness :
    routerRollback initialRouter allOkFacade "d1" "c" "s"
      = routerRollback initialRouter allOkFacade "d2" "c" "s"
    ∧ (routerRollback initialRouter allOkFacade "d1" "c" "s").2 = initialRouter
    ∧ allOkFacade.prevTaskDef "c" "s" = some "td-prev"
    ∧ (routerRollback initialRouter allOkFacade "d1" "c" "s").1.1
        = [.getPreviousTaskDef "c" "s", .updateService "c" "s" "td-prev"] :=
  ⟨(rollback_ignores_deployment_id initialRouter allOkFacade "d1" "d2" "c" "s").1,
   (rollback_ignores_deployment_id initialRouter allOkFacade "d1" "d2" "c" "s").2.2.1,
   rfl,
   (rollback_ignores_deployment_id initialRouter allOkFacade "d1" "d2" "c" "s").2.2.2.2
     "td-prev" rfl⟩

theorem rollingBatchLoop_ok_shifts (fac : Facade) (cA cW : Nat → Bool)
    (c s prev : String) :
    ∀ (ws : List Nat) (i : Nat),
      (rollingBatchLoop fac cA cW c s prev i ws).2 = .ok →
      (rollingBatchLoop fac cA cW c s prev i ws).1.filter FacadeCall.isShift
        = ws.map (fun w => FacadeCall.shiftTraffic c s w (100 - w)) := by
  intro ws
  induction ws with
  | nil => intro i _; rfl
  | cons w rest ih =>
    intro i hok
    by_cases h1 : cA i = true
    · simp [rollingBatchLoop, h1] at hok
    · by_cases h2 : fac.callOk (.shiftTraffic c s w (100 - w)) = true
      · by_cases h3 : cW i = true
        · simp [rollingBatchLoop, h1, h2, h3] at hok
        · by_cases h4 : fac.callOk (.describeService c s) = true
          · have hok2 : (rollingBatchLoop fac cA cW c s prev (i + 1) rest).2 = .ok := by
              simpa [rollingBatchLoop, h1, h2, h3, h4] using hok
            have hrec := ih (i + 1) hok2
            simp [rollingBatchLoop, h1, h2, h3, h4, FacadeCall.isShift, hrec]
          · simp [rollingBatchLoop, h1, h2, h3, h4] at hok
      · simp [rollingBatchLoop, h1, h2] at hok

theorem getLast?_range_map {α : Type} (f : Nat → α) (n : Nat) (h : 1 ≤ n) :
    ((List.range n).map f).getLast? = some (f (n - 1)) := by
  cases n with
  | zero => omega
  | succ m =>
    rw [List.range_succ, List.map_append]
    simp [List.getLast?_concat]

/-- C8 amended. The rolling batch loop
(`internal/strategy/rolling.go` lines 48-63) performs
`⌊100 / batch_size⌋` batches (Go integer division, not a ceiling);
batch `i` (1-based) shifts `min(i * batch_size, 100)` percent of
traffic to the new version, which within the loop always equals
`i * batch_size` (the clamp never binds); `batch_size = 100` collapses
the loop to the single batch `[100]`; the last batch reaches weight 100
exactly when `batch_size` divides 100 — otherwise the loop stops short
of 100 and only the `UpdateService` after the loop completes the move.
An all-success run issues exactly those shift calls, in order. -/
theorem rolling_floor_contract (bs : Nat) (h1 : 1 ≤ bs) (h2 : bs ≤ 100) :
    (rollingBatchWeights bs).length = 100 / bs
    ∧ (∀ (i : Nat) (hi : i < (rollingBatchWeights bs).length),
        (rollingBatchWeights bs).get ⟨i, hi⟩ = min ((i + 1) * bs) 100
        ∧ (rollingBatchWeights bs).get ⟨i, hi⟩ = (i + 1) * bs)
    ∧ (bs = 100 → rollingBatchWeights bs = [100])
    ∧ (100 % bs = 0 → (rollingBatchWeights bs).getLast? = some 100)
    ∧ (∀ (fac : Facade) (cA cW : Nat → Bool) (c s prev : String) (i0 : Nat),
        (rollingBatchLoop fac cA cW c s prev i0 (rollingBatchWeights bs)).2 = .ok →
        (rollingBatchLoop fac cA cW c s prev i0
            (rollingBatchWeights bs)).1.filter FacadeCall.isShift
          = (rollingBatchWeights bs).map
              (fun w => FacadeCall.shiftTraffic c s w (100 - w))) := by
  refine ⟨by simp [rollingBatchWeights], ?_, ?_, ?_, ?_⟩
  · intro i hi
    have hlen : i < 100 / bs := by simpa [rollingBatchWeights] using hi
    have hle : (i + 1) * bs ≤ 100 := by
      have hmul : (i + 1) * bs ≤ (100 / bs) * bs :=
        Nat.mul_le_mul_right bs (by omega)
      exact le_trans hmul (Nat.div_mul_le_self 100 bs)
    constructor
    · simp [rollingBatchWeights, List.get_eq_getElem]
    · simp [rollingBatchWeights, List.get_eq_getElem, Nat.min_eq_left hle]
  · intro hbs
    subst hbs
    decide
  · intro hmod
    have hn : 1 ≤ 100 / bs := (Nat.one_le_div_iff (by omega)).2 h2
    rw [rollingBatchWeights, getLast?_range_map _ _ hn]
    have harith : 100 / bs - 1 + 1 = 100 / bs := by omega
    rw [harith, Nat.div_mul_cancel (Nat.dvd_of_mod_eq_zero hmod)]
    simp
  · intro fac cA cW c s prev i0 hok
    exact rollingBatchLoop_ok_shifts fac cA cW c s prev (rollingBatchWeights bs) i0 hok

/-- Witness for the amended C8 claim at the default `batch_size = 25`:
four batches at weights 25, 50, 75, 100; 25 divides 100 so the last
batch reaches 100; the all-success loop issues exactly those four
traffic shifts. -/
theorem rolling_floor_contract_witness :
    1 ≤ 25 ∧ 25 ≤ 100
    ∧ (rollingBatchWeights 25).length = 100 / 25
    ∧ 100 % 25 = 0
    ∧ (rollingBatchWeights 25).getLast? = some 100
    ∧ (rollingBatchLoop allOkFacade (fun _ => false) (fun _ => false)
        "c" "s" "td-prev" 0 (rollingBatchWeights 25)).2 = .ok
    ∧ (rollingBatchLoop allOkFacade (fun _ => false) (fun _ => false)
        "c" "s" "td-prev" 0 (rollingBatchWeights 25)).1.filter FacadeCall.isShift
      = (rollingBatchWeights 25).map
          (fun w => FacadeCall.shiftTraffic "c" "s" w (100 - w)) :=
  ⟨by decide, by decide,
   (rolling_floor_contract 25 (by decide) (by decide)).1,
   by decide,
   (rolling_floor_contract 25 (by decide) (by decide)).2.2.2.1 (by decide),
   rfl,
   (rolling_floor_contract 25 (by decide) (by decide)).2.2.2.2 allOkFacade
     (fun _ => false) (fun _ => false) "c" "s" "td-prev" 0 rfl⟩

end EcsPlugin
